import Mathlib

/-!
Verification of the KarinJS/puppeteer-core pooling and dispatch engine.

Shallow embedding of:
- `PagePool` (src: pagePool.ts): a pool of browser tabs with idle/busy status,
  idle-eviction timers, capacity-bounded `acquirePage`, capacity-ignoring
  `createPage`, `releasePage`, `removePage`, `closeAll`.
- `Render` (src: core.ts): the capture protocol — screenshot options defaulting
  and png-quality stripping, element fallback resolution, optional-wait
  swallowing, multi-page slicing.
- `Puppeteer` (src: index.ts): the dispatcher — retry-once `screenshot`,
  sequential instance ids, crash-notification replacement.

Timers are modelled by an `armed` flag (clearTimeout disarms, setTimeout arms);
actual elapsed time is irrelevant to the claims.  The `fresh` field of a slot
is a ghost history flag ("never yet released"); it does not influence any
operation's behaviour and exists only to state the idle-timer invariant.
-/

namespace PuppeteerCore

/-! ## PagePool model (from pagePool.ts) -/

/-- Slot status: 'idle' | 'busy'. -/
inductive Status where
  | idle
  | busy
deriving DecidableEq, Repr

/-- One pool entry (interface PageInfo).  `page` is the tab handle identity;
`timerArmed` models whether the slot's idle-eviction `setTimeout` is pending
(`clearTimeout` disarms it); `fresh` is a ghost flag: true iff `releasePage`
has never hit this slot (used only to state the invariant of C9). -/
structure PageInfo where
  id : Nat
  page : Nat
  status : Status
  lastUsed : Nat
  timerArmed : Bool
  fresh : Bool
deriving DecidableEq, Repr

/-- Pool state.  The source keys slots by a random string id iterated in
insertion order; we model the Map as an insertion-ordered list and generate
fresh ids (and tab handles) from a counter. -/
structure PoolState where
  pool : List PageInfo
  nextId : Nat
deriving DecidableEq, Repr

/-- Capacity: `private maxSize: number = 10`. -/
def maxSize : Nat := 10

/-- Source `createNewPage`: open a tab, insert a new slot with status 'idle' and
`lastUsed = Date.now()`; no timer is set.  Returns the new state and the slot's
page handle. -/
def createNewPage (s : PoolState) (now : Nat) : PoolState × Nat :=
  (⟨s.pool ++ [⟨s.nextId, s.nextId, .idle, now, false, true⟩], s.nextId + 1⟩, s.nextId)

/-- Marking an idle slot busy on acquire: `status = 'busy'`,
`lastUsed = Date.now()`, `clearTimeout(timer)`. -/
def markBusy (i : PageInfo) (now : Nat) : PageInfo :=
  { i with status := .busy, lastUsed := now, timerArmed := false }

/-- The `for (const [, info] of this.pool.entries())` loop of `acquirePage`:
scan in insertion order for the first idle slot and mark it busy. -/
def acquireIdle : List PageInfo → Nat → Option (List PageInfo × Nat)
  | [], _ => none
  | i :: rest, now =>
    if i.status = .idle then some (markBusy i now :: rest, i.page)
    else match acquireIdle rest now with
         | some (l, p) => some (i :: l, p)
         | none => none

/-- Source `acquirePage`: first idle slot if any; else create a new busy slot when
`pool.size < maxSize`; else the caller blocks polling every 100ms — modelled
as no state change and no handle (`none`); the eventual poll success is a
later `acquire` step hitting the first branch. -/
def acquirePage (s : PoolState) (now : Nat) : PoolState × Option Nat :=
  match acquireIdle s.pool now with
  | some (l, p) => (⟨l, s.nextId⟩, some p)
  | none =>
    if s.pool.length < maxSize then
      let (s', p) := createNewPage s now
      (⟨s'.pool.map (fun i => if i.page = p then { i with status := .busy } else i),
        s'.nextId⟩, some p)
    else (s, none)

/-- Source `createPage`: `createNewPage` then set the slot busy, ignoring capacity. -/
def createPage (s : PoolState) (now : Nat) : PoolState × Nat :=
  let (s', p) := createNewPage s now
  (⟨s'.pool.map (fun i => if i.page = p then { i with status := .busy } else i),
    s'.nextId⟩, p)

/-- The `releasePage` loop body applied to the first slot whose `page` matches:
`status = 'idle'`, `lastUsed = Date.now()`, `startIdleTimer` (clears any old
timer and arms a fresh one). -/
def releaseSlot (i : PageInfo) (now : Nat) : PageInfo :=
  { i with status := .idle, lastUsed := now, timerArmed := true, fresh := false }

/-- Source `releasePage`: find the first slot holding `page` and release it; not
found is a no-op (`break` after the first match). -/
def releasePage : List PageInfo → Nat → Nat → List PageInfo
  | [], _, _ => []
  | i :: rest, page, now =>
    if i.page = page then releaseSlot i now :: rest
    else i :: releasePage rest page now

/-- Source `removePage`: find the first slot holding `page`, clear its timer, detach
listeners, close the tab (best effort) and delete the slot; not found is a
no-op. -/
def removePage : List PageInfo → Nat → List PageInfo
  | [], _ => []
  | i :: rest, page =>
    if i.page = page then rest
    else i :: removePage rest page

/-- The `setTimeout` callback of `startIdleTimer` for slot `id`: it can only
run while the timer is armed; firing consumes the timer, and if the slot is
still idle the tab is closed and the slot deleted. -/
def fireTimer : List PageInfo → Nat → List PageInfo
  | [], _ => []
  | i :: rest, id =>
    if i.id = id then
      if i.timerArmed then
        if i.status = .idle then rest else { i with timerArmed := false } :: rest
      else i :: rest
    else i :: fireTimer rest id

/-- Source `closeAll`: clear every timer, close every tab, clear the pool. -/
def closeAllPool (_s : PoolState) : PoolState := ⟨[], 0⟩

/-- Pool operations, for reachability traces. -/
inductive Op where
  | acquire (now : Nat)
  | create (now : Nat)
  | release (page now : Nat)
  | remove (page : Nat)
  | fire (id : Nat)
  | closeall
deriving DecidableEq, Repr

def applyOp (s : PoolState) : Op → PoolState
  | .acquire now => (acquirePage s now).1
  | .create now => (createPage s now).1
  | .release page now => ⟨releasePage s.pool page now, s.nextId⟩
  | .remove page => ⟨removePage s.pool page, s.nextId⟩
  | .fire id => ⟨fireTimer s.pool id, s.nextId⟩
  | .closeall => closeAllPool s

def applyOps (s : PoolState) (ops : List Op) : PoolState :=
  ops.foldl applyOp s

/-- The constructor runs `initFirstPage`, i.e. one `createNewPage`. -/
def initState (now : Nat) : PoolState := (createNewPage ⟨[], 0⟩ now).1

example : (applyOps (initState 0) [.create 0]).pool.length = 2 := by decide

example : (acquirePage (initState 0) 5).2 = some 0 := by decide

/-! ## Render: page lifecycle inside `render` (from core.ts)

On success the `finally` block releases the page back to the pool; on error
the `catch` block removes it (and clears the local variable so `finally`
skips the release). -/

/-- The `newPage` page acquisition: a task installing request interception gets a
dedicated `createPage` tab, every other task a pooled `acquirePage` tab. -/
def renderAcquire (s : PoolState) (interception : Bool) (now : Nat) :
    PoolState × Option Nat :=
  if interception then
    let (s', p) := createPage s now
    (s', some p)
  else acquirePage s now

/-- The `catch`/`finally` page handling of `render`: on error `removePage`,
on success `releasePage`. -/
def renderCleanup (s : PoolState) (page : Nat) (errored : Bool) (now : Nat) :
    PoolState :=
  if errored then ⟨removePage s.pool page, s.nextId⟩
  else ⟨releasePage s.pool page now, s.nextId⟩

/-! ## Render: screenshot options (from core.ts, render step)

JS `a || b` picks `b` when `a` is falsy; for `data.quality` the falsy values
are `undefined` and `0`. -/

inductive ImgType where
  | png
  | jpeg
  | webp
deriving DecidableEq, Repr

inductive Encoding where
  | binary
  | base64
deriving DecidableEq, Repr

structure ShotOptions where
  type : ImgType
  quality : Option Nat
  fullPage : Bool
  encoding : Encoding
  captureBeyondViewport : Bool
deriving DecidableEq, Repr

/-- Default `data.quality || 90` under JS truthiness (undefined and 0 are falsy). -/
def jsOrNat (q : Option Nat) (d : Nat) : Nat :=
  match q with
  | none => d
  | some n => if n = 0 then d else n

/-- JS truthiness of `options.quality : number | undefined`. -/
def qualityTruthy (q : Option Nat) : Bool :=
  match q with
  | none => false
  | some n => n ≠ 0

/-- The `options` object built by `render`, then
`if (options.quality && data.type === 'png') options.quality = undefined`. -/
def renderOptions (type? : Option ImgType) (quality? : Option Nat)
    (fullPage? : Option Bool) (encoding? : Option Encoding)
    (captureBeyondViewport? : Option Bool) : ShotOptions :=
  let o : ShotOptions :=
    { type := type?.getD .jpeg
      quality := some (jsOrNat quality? 90)
      fullPage := fullPage?.getD false
      encoding := encoding?.getD .binary
      captureBeyondViewport := captureBeyondViewport?.getD false }
  if qualityTruthy o.quality ∧ type? = some .png then { o with quality := none }
  else o

/-! ## Render: multi-page slicing (from core.ts, render step)

Geometry is exact rational arithmetic (JS numbers hold the integer and the
common fractional cases of `boundingBox` exactly). -/

structure Clip where
  x : ℚ
  y : ℚ
  width : ℚ
  height : ℚ
deriving DecidableEq, Repr

/-- Type of `data.multiPage`: absent, boolean, or number. -/
inductive MultiPage where
  | undef
  | bool (b : Bool)
  | num (n : ℚ)
deriving DecidableEq, Repr

/-- JS truthiness of `data.multiPage` (`!data.multiPage` selects the
single-image branch): `undefined`, `false` and `0` are falsy. -/
def multiPageTruthy : MultiPage → Bool
  | .undef => false
  | .bool b => b
  | .num n => n ≠ 0

/-- Slice height: `typeof data.multiPage === 'number' ? data.multiPage :
(boxHeight >= 2000 ? 2000 : boxHeight)`. -/
def sliceHeight (m : MultiPage) (boxHeight : ℚ) : ℚ :=
  match m with
  | .num n => n
  | _ => if boxHeight ≥ 2000 then 2000 else boxHeight

/-- Slice count `Math.ceil(boxHeight / height)`. -/
def sliceCount (boxHeight height : ℚ) : ℤ := ⌈boxHeight / height⌉

/-- The clip rectangle of slice `i`: `y = i * height`,
`clipHeight = Math.min(height, boxHeight - i * height)`, and from the second
slice on `y -= 100; clipHeight += 100`. -/
def sliceClip (boxWidth boxHeight height : ℚ) (i : ℕ) : Clip :=
  let y : ℚ := i * height
  let clipHeight : ℚ := min height (boxHeight - i * height)
  if i ≠ 0 then ⟨0, y - 100, boxWidth, clipHeight + 100⟩
  else ⟨0, y, boxWidth, clipHeight⟩

/-- The ordered clip list of the pagination loop. -/
def renderSlices (boxWidth boxHeight height : ℚ) : List Clip :=
  (List.range (sliceCount boxHeight height).toNat).map
    (sliceClip boxWidth boxHeight height)

/-- Shape of `render`'s return value: one image or an ordered list of slice
images (identified by their clips). -/
inductive RenderOut where
  | single
  | pages (clips : List Clip)
deriving DecidableEq, Repr

/-- The capture-mode selection of `render`: `data.fullPage` first, then
`!data.multiPage` picks the single-element screenshot, else pagination. -/
def renderShape (fullPage : Bool) (m : MultiPage) (boxWidth boxHeight : ℚ) :
    RenderOut :=
  if fullPage then .single
  else if ¬multiPageTruthy m then .single
  else .pages (renderSlices boxWidth boxHeight (sliceHeight m boxHeight))

/-! ## Render: element resolution (from core.ts, elementHandle)

`page.$(sel)` resolves to an element, to `null`, or rejects; modelled as a
deterministic lookup function `Lookup`. -/

/-- Driver lookup `page.$ : selector → element | null`, possibly throwing. -/
abbrev Lookup := String → Except Nat (Option Nat)

/-- Semantics of JS `await a || await b`: evaluate `a`; a throw propagates; `null` falls
through to `b`. -/
def jsOrElse (a : Except Nat (Option Nat)) (b : Unit → Except Nat (Option Nat)) :
    Except Nat (Option Nat) :=
  match a with
  | .error e => .error e
  | .ok (some x) => .ok (some x)
  | .ok none => b ()

/-- Chain `await page.$('#container') || await page.$('body')`. -/
def containerBody (q : Lookup) : Except Nat (Option Nat) :=
  jsOrElse (q "#container") (fun _ => q "body")

/-- Source `elementHandle`: inside `try`, the caller's selector (when given) chained
with `#container` and `body` by `||`; any throw lands in `catch`, which runs
`page.$('#container') || page.$('body')` once more. -/
def elementHandle (q : Lookup) (name : Option String) : Except Nat (Option Nat) :=
  let tryBlock :=
    match name with
    | some n => jsOrElse (q n) (fun _ => containerBody q)
    | none => containerBody q
  match tryBlock with
  | .ok v => .ok v
  | .error _ => containerBody q

/-- Modelled from the spec's words for comparison, NOT from the source: the
fallback chain C8 describes — candidates in order caller's selector,
`#container`, `body`, where a lookup that throws is treated identically to
one returning "not found" and the chain continues. -/
def lookupSwallow (q : Lookup) (s : String) : Option Nat :=
  match q s with
  | .ok v => v
  | .error _ => none

/-- Modelled from the spec's words for comparison, NOT from the source (see
`lookupSwallow`). -/
def fallbackChainSpec (q : Lookup) (name : Option String) : Option Nat :=
  (match name with
   | some n => lookupSwallow q n
   | none => none).orElse
    (fun _ => (lookupSwallow q "#container").orElse (fun _ => lookupSwallow q "body"))

/-! ## Render: readiness waits (from core.ts, newPage)

Each wait's settlement is given as an `Except`; `.catch(() => { })` replaces
a rejection by a resolution. -/

/-- Swallowing `promise.catch(() => { })`. -/
def catchSwallow (_w : Except Nat Unit) : Except Nat Unit := .ok ()

/-- The `for (... of list) await wait.catch(() => { })` loops. -/
def awaitEachCaught : List (Except Nat Unit) → Except Nat Unit
  | [] => .ok ()
  | w :: ws =>
    match catchSwallow w with
    | .ok _ => awaitEachCaught ws
    | .error e => .error e

/-- Normalization `if (!Array.isArray(x)) x = [x]`: a single wait spec is wrapped into a
one-element list. -/
def normalizeWaits (v : Except Nat Unit ⊕ List (Except Nat Unit)) :
    List (Except Nat Unit) :=
  match v with
  | .inl w => [w]
  | .inr ws => ws

/-- An optional wait parameter: absent, a single spec, or a list of specs. -/
def optWaits (v : Option (Except Nat Unit ⊕ List (Except Nat Unit))) :
    List (Except Nat Unit) :=
  match v with
  | none => []
  | some w => normalizeWaits w

/-- The wait phase of `newPage`: `await page.waitForSelector('body')` (NOT
caught), then the four optional wait families, each entry individually
caught. -/
def waitPhase (bodyWait : Except Nat Unit)
    (sels funcs reqs resps : Option (Except Nat Unit ⊕ List (Except Nat Unit))) :
    Except Nat Unit :=
  match bodyWait with
  | .error e => .error e
  | .ok _ =>
    match awaitEachCaught (optWaits sels) with
    | .error e => .error e
    | .ok _ =>
      match awaitEachCaught (optWaits funcs) with
      | .error e => .error e
      | .ok _ =>
        match awaitEachCaught (optWaits reqs) with
        | .error e => .error e
        | .ok _ => awaitEachCaught (optWaits resps)

/-! ## Puppeteer dispatcher (from index.ts) -/

/-- What a dispatch (`this.task(options)`) settles with: a JS value on
fulfilment, an error on rejection. -/
inductive JsValue where
  | arr
  | buf
  | str
  | other
deriving DecidableEq, Repr

/-- Validity check `Array.isArray(result) || Buffer.isBuffer(result)`. -/
def isImageResult : JsValue → Bool
  | .arr => true
  | .buf => true
  | _ => false

/-- Source `screenshot`: await the first dispatch (a rejection propagates); return
its result when it passes the image check; otherwise log and await exactly
one more dispatch.  Also returns how many dispatches were attempted. -/
def screenshotModel (dispatch : Nat → Except Nat JsValue) :
    Except Nat JsValue × Nat :=
  match dispatch 0 with
  | .error e => (.error e, 1)
  | .ok r => if isImageResult r then (.ok r, 1) else (dispatch 1, 2)

/-- Dispatcher rotation state: `index` is the next sequential browser id,
`list` the rotation of live instance ids. -/
structure InstancePool where
  index : Nat
  list : List Nat
deriving DecidableEq, Repr

/-- Source `launch`: `new Render(this.index++, ...)` appended to the rotation. -/
def launch (s : InstancePool) : InstancePool :=
  ⟨s.index + 1, s.list ++ [s.index]⟩

/-- The `browserCrash` listener: `findIndex` + `splice(index, 1)` removes the
first rotation entry with the crashed id (no-op when absent), then `launch()`
runs unconditionally. -/
def onBrowserCrash (s : InstancePool) (id : Nat) : InstancePool :=
  launch ⟨s.index, s.list.erase id⟩

/-! ## Auxiliary definitions for the claims -/

/-- Whether an op is the capacity-ignoring `createPage`. -/
def Op.isCreate : Op → Bool
  | .create _ => true
  | _ => false

/-- The idle-timer slot invariant of C9: a busy slot has no armed timer; an
idle slot has an armed timer or was just created (never yet released). -/
def slotInv (i : PageInfo) : Prop :=
  (i.status = .busy → i.timerArmed = false) ∧
  (i.status = .idle → i.timerArmed = true ∨ i.fresh = true)

instance (i : PageInfo) : Decidable (slotInv i) := by
  unfold slotInv; infer_instance

/-- The slot invariant over a pool state. -/
def poolInv (s : PoolState) : Prop := ∀ i ∈ s.pool, slotInv i

/-- Strengthened induction invariant: every slot satisfies `slotInv` and its
tab handle was generated by the counter (below `nextId`). -/
def fullInv (s : PoolState) : Prop :=
  ∀ i ∈ s.pool, slotInv i ∧ i.page < s.nextId

/-- A concrete driver lookup for C8: the caller's selector resolves to no
element, the `#container` lookup throws, `body` resolves. -/
def c8lookup : Lookup := fun s =>
  if s = "body" then .ok (some 0)
  else if s = "#container" then .error 7
  else .ok none

/-- The C3 counterexample trace: one pooled acquire (page 0 busy), then an
interception task's dedicated `createPage` (page 1), then the success path of
`render` (releasePage 1). -/
def c3poolAfterSuccess : PoolState :=
  renderCleanup (renderAcquire (acquirePage (initState 0) 1).1 true 2).1 1 false 3

/-! ## Theorems -/

/-- C1: a screenshot call whose first dispatch fails (settles with a value
that is neither an array nor a Buffer) and whose second dispatch succeeds
returns the success result; when the second dispatch also fails by rejecting,
its error propagates; and no call ever attempts more than two dispatches. -/
theorem c1_retry_once (dispatch : Nat → Except Nat JsValue) (r : JsValue)
    (h0 : dispatch 0 = .ok r) (hr : isImageResult r = false) :
    (∀ v, dispatch 1 = .ok v → isImageResult v = true →
      screenshotModel dispatch = (.ok v, 2)) ∧
    (∀ e, dispatch 1 = .error e → screenshotModel dispatch = (.error e, 2)) ∧
    (∀ d : Nat → Except Nat JsValue, (screenshotModel d).2 ≤ 2) := by
  refine ⟨?_, ?_, ?_⟩
  · intro v hv _
    simp [screenshotModel, h0, hr, hv]
  · intro e he
    simp [screenshotModel, h0, hr, he]
  · intro d
    unfold screenshotModel
    rcases d 0 with e | r'
    · simp
    · by_cases h : isImageResult r' = true <;> simp [h]

/-- C1 witness: first dispatch settles with an invalid value, second with an
array; the call returns the array after exactly two dispatches. -/
theorem c1_retry_once_witness :
    screenshotModel (fun n => if n = 0 then .ok .other else .ok .arr) =
      (.ok .arr, 2) :=
  (c1_retry_once (fun n => if n = 0 then .ok .other else .ok .arr) .other
    rfl rfl).1 .arr rfl rfl

/-- C5 counterexample: a crash notification for an id absent from the
rotation (already removed) is not a no-op — `launch()` still runs and the
rotation grows from one entry to two. -/
theorem c5_removed_id_counterexample :
    onBrowserCrash ⟨1, [0]⟩ 5 = ⟨2, [0, 1]⟩ ∧
    (onBrowserCrash ⟨1, [0]⟩ 5).list.length ≠ ([0] : List Nat).length := by
  decide

/-- C5 (amended): for a crash notification whose id is present, the rotation
loses that entry and gains exactly one new instance whose sequential id is
fresh (never previously assigned), leaving the length unchanged; ids stay
distinct and below the next counter value.  A notification for an absent id
is not a no-op: it still appends a replacement. -/
theorem c5_crash_replacement (s : InstancePool) (id : Nat)
    (hlt : ∀ a ∈ s.list, a < s.index) (hnd : s.list.Nodup)
    (hmem : id ∈ s.list) :
    (onBrowserCrash s id).list.length = s.list.length ∧
    id ∉ (onBrowserCrash s id).list ∧
    s.index ∈ (onBrowserCrash s id).list ∧
    s.index ∉ s.list ∧
    (onBrowserCrash s id).list.Nodup ∧
    ∀ a ∈ (onBrowserCrash s id).list, a < (onBrowserCrash s id).index := by
  have hidx : s.index ∉ s.list := fun h => lt_irrefl _ (hlt _ h)
  have hne : id ≠ s.index := by
    intro h
    exact absurd (hlt id hmem) (by rw [h]; exact lt_irrefl _)
  simp only [onBrowserCrash, launch]
  refine ⟨?_, ?_, ?_, hidx, ?_, ?_⟩
  · rw [List.length_append, ← List.length_erase_add_one hmem]
    rfl
  · simp only [List.mem_append, List.mem_singleton]
    rintro (h | h)
    · exact hnd.not_mem_erase h
    · exact hne h
  · simp
  · rw [List.nodup_append]
    refine ⟨hnd.erase id, List.nodup_singleton _, ?_⟩
    intro a ha hb
    rw [List.mem_singleton] at hb
    subst hb
    exact hidx (List.mem_of_mem_erase ha)
  · intro a ha
    rcases List.mem_append.mp ha with h | h
    · exact Nat.lt_succ_of_lt (hlt a (List.mem_of_mem_erase h))
    · rw [List.mem_singleton] at h
      subst h
      exact Nat.lt_succ_self _

/-- C5 witness: in the rotation `[0, 1]` with next id 2, a crash of instance
0 removes it, appends fresh instance 2 and keeps length 2. -/
theorem c5_crash_replacement_witness :
    (onBrowserCrash ⟨2, [0, 1]⟩ 0).list.length = ([0, 1] : List Nat).length ∧
    0 ∉ (onBrowserCrash ⟨2, [0, 1]⟩ 0).list ∧
    2 ∈ (onBrowserCrash ⟨2, [0, 1]⟩ 0).list ∧
    2 ∉ ([0, 1] : List Nat) ∧
    (onBrowserCrash ⟨2, [0, 1]⟩ 0).list.Nodup ∧
    ∀ a ∈ (onBrowserCrash ⟨2, [0, 1]⟩ 0).list,
      a < (onBrowserCrash ⟨2, [0, 1]⟩ 0).index :=
  c5_crash_replacement ⟨2, [0, 1]⟩ 0 (by decide) (by decide) (by decide)

/-- C6: requesting type png with quality 90 yields a capture call with
quality absent; with every field absent the defaults are type jpeg, quality
90 and binary encoding; the encoding is binary unless base64 is requested. -/
theorem c6_png_quality_and_defaults (t? : Option ImgType) (q? : Option Nat)
    (fp? cb? : Option Bool) (e? : Option Encoding) :
    (renderOptions (some .png) (some 90) fp? e? cb?).quality = none ∧
    renderOptions none none none none none =
      ⟨.jpeg, some 90, false, .binary, false⟩ ∧
    (renderOptions t? q? fp? none cb?).encoding = .binary ∧
    (renderOptions t? q? fp? (some .binary) cb?).encoding = .binary ∧
    (renderOptions t? q? fp? (some .base64) cb?).encoding = .base64 := by
  refine ⟨?_, ?_, ?_, ?_, ?_⟩
  · simp [renderOptions, jsOrNat, qualityTruthy]
  · simp [renderOptions, jsOrNat, qualityTruthy]
  all_goals
    unfold renderOptions
    dsimp only
    split <;> rfl

/-- C7: the readiness-wait phase of newPage is insensitive to the outcomes of
every optional wait (selector, function, request, response; single value or
list): the phase's result is exactly the body wait's result, so no
optional-wait rejection or timeout ever propagates to the caller. -/
theorem c7_optional_waits_swallowed (body : Except Nat Unit)
    (sels funcs reqs resps :
      Option (Except Nat Unit ⊕ List (Except Nat Unit))) :
    waitPhase body sels funcs reqs resps = body := by
  have hok : ∀ ws : List (Except Nat Unit), awaitEachCaught ws = .ok () := by
    intro ws
    induction ws with
    | nil => rfl
    | cons w ws ih => simp [awaitEachCaught, catchSwallow, ih]
  rcases body with e | u
  · simp [waitPhase]
  · cases u
    simp [waitPhase, hok]

/-- C10: a screenshot task carrying the numeric multiPage value 0 takes the
single-image branch of render (JS `!data.multiPage` is true for 0), returning
one image rather than an array. -/
theorem c10_multipage_zero_single (boxWidth boxHeight : ℚ) :
    renderShape false (.num 0) boxWidth boxHeight = .single := by
  simp [renderShape, multiPageTruthy]

/-- C2 counterexample: for box height 4500 and slice height 2000 the code
produces slice 2 with clip height 600 (min(2000, 4500 − 4000) + 100), not the
claimed 700; slices 0 and 1 match the claim. -/
theorem c2_slice_counterexample :
    renderSlices 1200 4500 2000 =
      [⟨0, 0, 1200, 2000⟩, ⟨0, 1900, 1200, 2100⟩, ⟨0, 3900, 1200, 600⟩] ∧
    (600 : ℚ) ≠ 700 := by
  constructor
  · have h : sliceCount 4500 2000 = 3 := by
      rw [sliceCount, Int.ceil_eq_iff]
      norm_num
    rw [renderSlices, h]
    show List.map _ [0, 1, 2] = _
    simp only [List.map_cons, List.map_nil, sliceClip]
    norm_num [Clip.mk.injEq, min_def]
  · norm_num

/-- C2 (amended): for box height 4500 and slice height 2000 the slice count
is 3 with clips {y 0, h 2000}, {y 1900, h 2100} and {y 3900, h 600}; in
general the slice count is the ceiling of boxHeight / sliceHeight, slice 0 is
unshifted, and every slice with index i > 0 has its y offset shifted back by
100px and its height grown by 100px over the raw slice. -/
theorem c2_multipage_slicing (boxWidth boxHeight height : ℚ) (i : ℕ)
    (hh : 0 < height) (hb : 0 ≤ boxHeight) (hi : i ≠ 0) :
    renderSlices 1200 4500 2000 =
      [⟨0, 0, 1200, 2000⟩, ⟨0, 1900, 1200, 2100⟩, ⟨0, 3900, 1200, 600⟩] ∧
    ((renderSlices boxWidth boxHeight height).length : ℤ) =
      sliceCount boxHeight height ∧
    (sliceClip boxWidth boxHeight height 0).y = 0 ∧
    (sliceClip boxWidth boxHeight height 0).height = min height boxHeight ∧
    (sliceClip boxWidth boxHeight height i).y = i * height - 100 ∧
    (sliceClip boxWidth boxHeight height i).height
      = min height (boxHeight - i * height) + 100 := by
  have hcl : renderSlices 1200 4500 2000 =
      [⟨0, 0, 1200, 2000⟩, ⟨0, 1900, 1200, 2100⟩, ⟨0, 3900, 1200, 600⟩] := by
    have h : sliceCount 4500 2000 = 3 := by
      rw [sliceCount, Int.ceil_eq_iff]
      norm_num
    rw [renderSlices, h]
    show List.map _ [0, 1, 2] = _
    simp only [List.map_cons, List.map_nil, sliceClip]
    norm_num [Clip.mk.injEq, min_def]
  have hnn : (0 : ℤ) ≤ sliceCount boxHeight height :=
    Int.ceil_nonneg (div_nonneg hb hh.le)
  refine ⟨hcl, ?_, ?_, ?_, ?_, ?_⟩
  · rw [renderSlices, List.length_map, List.length_range,
      Int.toNat_of_nonneg hnn]
  · simp [sliceClip]
  · simp [sliceClip]
  · simp [sliceClip, hi]
  · simp [sliceClip, hi]

/-- C2 witness: the general clauses at boxWidth 1200, boxHeight 4500, slice
height 2000, slice index 1. -/
theorem c2_multipage_slicing_witness :
    renderSlices 1200 4500 2000 =
      [⟨0, 0, 1200, 2000⟩, ⟨0, 1900, 1200, 2100⟩, ⟨0, 3900, 1200, 600⟩] ∧
    ((renderSlices 1200 4500 2000).length : ℤ) = sliceCount 4500 2000 ∧
    (sliceClip 1200 4500 2000 0).y = 0 ∧
    (sliceClip 1200 4500 2000 0).height = min 2000 4500 ∧
    (sliceClip 1200 4500 2000 1).y = 1 * 2000 - 100 ∧
    (sliceClip 1200 4500 2000 1).height = min 2000 (4500 - 1 * 2000) + 100 :=
  c2_multipage_slicing 1200 4500 2000 1 (by norm_num) (by norm_num)
    (by norm_num)

/-- C8 counterexample: the caller's selector finds nothing, the `#container`
lookup throws and `body` resolves; the claim requires the chain to continue
to `body`, but `elementHandle` retries `#container` in its catch handler and
the second throw propagates: it returns the error, not the body element
chosen by the claimed chain. -/
theorem c8_lookup_throw_counterexample :
    elementHandle c8lookup (some "target") = .error 7 ∧
    fallbackChainSpec c8lookup (some "target") = some 0 ∧
    Except.error 7 ≠ (.ok (some 0) : Except Nat (Option Nat)) :=
  ⟨rfl, rfl, fun h => Except.noConfusion h⟩

/-- C8 (amended): when the `#container` and `body` lookups themselves do not
throw, elementHandle implements the claimed chain — caller's selector first
(a throw or a miss of the selector lookup both fall through), then
`#container`, then `body`; a throw from the `#container` or `body` lookup is
instead retried once by the catch handler and then propagates. -/
theorem c8_fallback_chain (q : Lookup) (name : Option String)
    (c b : Option Nat) (hc : q "#container" = .ok c) (hb : q "body" = .ok b) :
    elementHandle q name = .ok (fallbackChainSpec q name) := by
  rcases name with _ | n
  · rcases c with _ | cv <;>
      simp [elementHandle, fallbackChainSpec, containerBody, jsOrElse,
        lookupSwallow, hc, hb, Option.orElse]
  · rcases hq : q n with e | v
    · rcases c with _ | cv <;>
        simp [elementHandle, fallbackChainSpec, containerBody, jsOrElse,
          lookupSwallow, hq, hc, hb, Option.orElse]
    · rcases v with _ | nv
      · rcases c with _ | cv <;>
          simp [elementHandle, fallbackChainSpec, containerBody, jsOrElse,
            lookupSwallow, hq, hc, hb, Option.orElse]
      · simp [elementHandle, fallbackChainSpec, containerBody, jsOrElse,
          lookupSwallow, hq, Option.orElse]

/-- C8 witness: a lookup where the caller's selector throws, `#container`
misses and `body` resolves; elementHandle returns the body element as the
claimed chain does. -/
theorem c8_fallback_chain_witness :
    elementHandle
      (fun s => if s = "body" then .ok (some 5)
                else if s = "#container" then .ok none else .error 3)
      (some "target")
    = .ok (fallbackChainSpec
        (fun s => if s = "body" then .ok (some 5)
                  else if s = "#container" then .ok none else .error 3)
        (some "target")) :=
  c8_fallback_chain _ (some "target") none (some 5) rfl rfl

/-! ### Pool helper lemmas -/

theorem slotInv_markBusy (i : PageInfo) (now : Nat) :
    slotInv (markBusy i now) := by
  simp [slotInv, markBusy]

theorem slotInv_releaseSlot (i : PageInfo) (now : Nat) :
    slotInv (releaseSlot i now) := by
  simp [slotInv, releaseSlot]

theorem map_setBusy_id (l : List PageInfo) (p : Nat)
    (h : ∀ i ∈ l, i.page ≠ p) :
    l.map (fun i => if i.page = p then { i with status := Status.busy } else i)
      = l := by
  induction l with
  | nil => rfl
  | cons a rest ih =>
    simp only [List.map_cons, List.cons.injEq]
    refine ⟨?_, ih fun i hi => h i (List.mem_cons_of_mem _ hi)⟩
    rw [if_neg (h a (List.mem_cons_self _ _))]

theorem createPage_eq (s : PoolState) (now : Nat)
    (h : ∀ i ∈ s.pool, i.page ≠ s.nextId) :
    createPage s now =
      (⟨s.pool ++ [⟨s.nextId, s.nextId, .busy, now, false, true⟩],
        s.nextId + 1⟩, s.nextId) := by
  simp only [createPage, createNewPage]
  rw [List.map_append, map_setBusy_id s.pool s.nextId h]
  simp

theorem acquirePage_eq_idle (s : PoolState) (now : Nat)
    (r : List PageInfo × Nat) (hA : acquireIdle s.pool now = some r) :
    acquirePage s now = (⟨r.1, s.nextId⟩, some r.2) := by
  obtain ⟨l, p⟩ := r
  unfold acquirePage
  rw [hA]

theorem acquirePage_eq_grow (s : PoolState) (now : Nat)
    (hA : acquireIdle s.pool now = none) (hlen : s.pool.length < maxSize) :
    acquirePage s now =
      (⟨(s.pool ++ [(⟨s.nextId, s.nextId, .idle, now, false, true⟩ : PageInfo)]).map
          (fun i => if i.page = s.nextId then { i with status := Status.busy }
                    else i),
        s.nextId + 1⟩, some s.nextId) := by
  unfold acquirePage
  rw [hA, if_pos hlen]
  rfl

theorem acquirePage_eq_block (s : PoolState) (now : Nat)
    (hA : acquireIdle s.pool now = none) (hlen : ¬s.pool.length < maxSize) :
    acquirePage s now = (s, none) := by
  unfold acquirePage
  rw [hA, if_neg hlen]

theorem createPage_pool (s : PoolState) (now : Nat) :
    (createPage s now).1 =
      ⟨(s.pool ++ [(⟨s.nextId, s.nextId, .idle, now, false, true⟩ : PageInfo)]).map
          (fun i => if i.page = s.nextId then { i with status := Status.busy }
                    else i),
        s.nextId + 1⟩ := rfl

/-- The grown pool (shared by `acquirePage`'s growth branch and
`createPage`) satisfies the strengthened invariant. -/
theorem grow_fullInv (s : PoolState) (now : Nat) (h : fullInv s) :
    fullInv ⟨(s.pool ++ [(⟨s.nextId, s.nextId, .idle, now, false, true⟩ : PageInfo)]).map
        (fun i => if i.page = s.nextId then { i with status := Status.busy }
                  else i),
      s.nextId + 1⟩ := by
  intro i hi
  rw [List.map_append,
    map_setBusy_id s.pool s.nextId (fun j hj => Nat.ne_of_lt (h j hj).2)] at hi
  rcases List.mem_append.mp hi with hi | hi
  · exact ⟨(h i hi).1, Nat.lt_succ_of_lt (h i hi).2⟩
  · rw [List.map_singleton, List.mem_singleton] at hi
    subst hi
    dsimp only
    rw [if_pos rfl]
    exact ⟨by simp [slotInv], Nat.lt_succ_self _⟩

theorem releasePage_append (l : List PageInfo) (x : PageInfo) (page now : Nat)
    (h : ∀ i ∈ l, i.page ≠ page) (hx : x.page = page) :
    releasePage (l ++ [x]) page now = l ++ [releaseSlot x now] := by
  induction l with
  | nil => simp [releasePage, hx]
  | cons a rest ih =>
    rw [List.cons_append, releasePage, if_neg (h a (List.mem_cons_self _ _)),
      ih fun i hi => h i (List.mem_cons_of_mem _ hi), List.cons_append]

theorem acquireIdle_append_busy (l : List PageInfo) (x : PageInfo) (now : Nat)
    (h : ∀ i ∈ l, i.status = .busy) (hx : x.status = .idle) :
    acquireIdle (l ++ [x]) now = some (l ++ [markBusy x now], x.page) := by
  induction l with
  | nil => simp [acquireIdle, hx]
  | cons a rest ih =>
    have ha : ¬a.status = Status.idle := by
      rw [h a (List.mem_cons_self _ _)]
      exact fun hc => Status.noConfusion hc
    rw [List.cons_append, acquireIdle, if_neg ha,
      ih fun i hi => h i (List.mem_cons_of_mem _ hi)]
    rfl

theorem acquireIdle_length (now : Nat) :
    ∀ (l : List PageInfo) (r : List PageInfo × Nat),
      acquireIdle l now = some r → r.1.length = l.length := by
  intro l
  induction l with
  | nil => intro r h; simp [acquireIdle] at h
  | cons a rest ih =>
    intro r h
    rw [acquireIdle] at h
    split at h
    · rw [Option.some.injEq] at h
      subst h
      simp
    · cases hr : acquireIdle rest now with
      | none => rw [hr] at h; cases h
      | some r' =>
        rw [hr, Option.some.injEq] at h
        subst h
        simp [ih r' hr]

theorem releasePage_length (page now : Nat) :
    ∀ l : List PageInfo, (releasePage l page now).length = l.length := by
  intro l
  induction l with
  | nil => rfl
  | cons a rest ih =>
    rw [releasePage]
    split <;> simp [ih]

theorem removePage_length (page : Nat) :
    ∀ l : List PageInfo, (removePage l page).length ≤ l.length := by
  intro l
  induction l with
  | nil => exact Nat.le_refl _
  | cons a rest ih =>
    rw [removePage]
    split
    · exact Nat.le_succ _
    · simpa using Nat.succ_le_succ ih

theorem fireTimer_length (id : Nat) :
    ∀ l : List PageInfo, (fireTimer l id).length ≤ l.length := by
  intro l
  induction l with
  | nil => exact Nat.le_refl _
  | cons a rest ih =>
    rw [fireTimer]
    split
    · split
      · split
        · exact Nat.le_succ _
        · simp
      · exact Nat.le_refl _
    · simpa using Nat.succ_le_succ ih

theorem acquireIdle_fullInv (now n : Nat) :
    ∀ (l : List PageInfo) (r : List PageInfo × Nat),
      (∀ i ∈ l, slotInv i ∧ i.page < n) → acquireIdle l now = some r →
      ∀ i ∈ r.1, slotInv i ∧ i.page < n := by
  intro l
  induction l with
  | nil => intro r _ h; simp [acquireIdle] at h
  | cons a rest ih =>
    intro r hall h
    rw [acquireIdle] at h
    split at h
    · rw [Option.some.injEq] at h
      subst h
      intro i hi
      rcases List.mem_cons.mp hi with rfl | hi
      · refine ⟨slotInv_markBusy a now, ?_⟩
        simpa [markBusy] using (hall a (List.mem_cons_self _ _)).2
      · exact hall i (List.mem_cons_of_mem _ hi)
    · cases hr : acquireIdle rest now with
      | none => rw [hr] at h; cases h
      | some r' =>
        rw [hr, Option.some.injEq] at h
        subst h
        intro i hi
        rcases List.mem_cons.mp hi with rfl | hi
        · exact hall i (List.mem_cons_self _ _)
        · exact ih r' (fun j hj => hall j (List.mem_cons_of_mem _ hj)) hr i hi

theorem releasePage_fullInv (page now n : Nat) :
    ∀ l : List PageInfo, (∀ i ∈ l, slotInv i ∧ i.page < n) →
      ∀ i ∈ releasePage l page now, slotInv i ∧ i.page < n := by
  intro l
  induction l with
  | nil => intro _ i hi; simp [releasePage] at hi
  | cons a rest ih =>
    intro hall i hi
    rw [releasePage] at hi
    split at hi
    · rcases List.mem_cons.mp hi with rfl | hi
      · refine ⟨slotInv_releaseSlot a now, ?_⟩
        simpa [releaseSlot] using (hall a (List.mem_cons_self _ _)).2
      · exact hall i (List.mem_cons_of_mem _ hi)
    · rcases List.mem_cons.mp hi with rfl | hi
      · exact hall i (List.mem_cons_self _ _)
      · exact ih (fun j hj => hall j (List.mem_cons_of_mem _ hj)) i hi

theorem removePage_subset (page : Nat) :
    ∀ l : List PageInfo, ∀ i ∈ removePage l page, i ∈ l := by
  intro l
  induction l with
  | nil => intro i hi; simp [removePage] at hi
  | cons a rest ih =>
    intro i hi
    rw [removePage] at hi
    split at hi
    · exact List.mem_cons_of_mem _ hi
    · rcases List.mem_cons.mp hi with rfl | hi
      · exact List.mem_cons_self _ _
      · exact List.mem_cons_of_mem _ (ih i hi)

theorem fireTimer_fullInv (id n : Nat) :
    ∀ l : List PageInfo, (∀ i ∈ l, slotInv i ∧ i.page < n) →
      ∀ i ∈ fireTimer l id, slotInv i ∧ i.page < n := by
  intro l
  induction l with
  | nil => intro _ i hi; simp [fireTimer] at hi
  | cons a rest ih =>
    intro hall i hi
    rw [fireTimer] at hi
    split at hi
    · split at hi
      · split at hi
        · exact hall i (List.mem_cons_of_mem _ hi)
        · rcases List.mem_cons.mp hi with rfl | hi
          · rename_i hs
            refine ⟨⟨fun _ => rfl, fun hidle => absurd hidle hs⟩, ?_⟩
            simpa using (hall a (List.mem_cons_self _ _)).2
          · exact hall i (List.mem_cons_of_mem _ hi)
      · exact hall i hi
    · rcases List.mem_cons.mp hi with rfl | hi
      · exact hall i (List.mem_cons_self _ _)
      · exact ih (fun j hj => hall j (List.mem_cons_of_mem _ hj)) i hi

theorem applyOp_fullInv (s : PoolState) (o : Op) (h : fullInv s) :
    fullInv (applyOp s o) := by
  cases o with
  | acquire now =>
    show fullInv (acquirePage s now).1
    cases hA : acquireIdle s.pool now with
    | some r =>
      rw [acquirePage_eq_idle s now r hA]
      intro i hi
      exact acquireIdle_fullInv now s.nextId s.pool r h hA i hi
    | none =>
      by_cases hlen : s.pool.length < maxSize
      · rw [acquirePage_eq_grow s now hA hlen]
        exact grow_fullInv s now h
      · rw [acquirePage_eq_block s now hA hlen]
        exact h
  | create now =>
    show fullInv (createPage s now).1
    rw [createPage_pool]
    exact grow_fullInv s now h
  | release page now =>
    intro i hi
    exact releasePage_fullInv page now s.nextId s.pool h i hi
  | remove page =>
    intro i hi
    exact h i (removePage_subset page s.pool i hi)
  | fire id =>
    intro i hi
    exact fireTimer_fullInv id s.nextId s.pool h i hi
  | closeall =>
    intro i hi
    simp [applyOp, closeAllPool] at hi

theorem applyOps_fullInv (ops : List Op) :
    ∀ s : PoolState, fullInv s → fullInv (applyOps s ops) := by
  induction ops with
  | nil => intro s h; exact h
  | cons o rest ih =>
    intro s h
    exact ih (applyOp s o) (applyOp_fullInv s o h)

theorem initState_fullInv (n0 : Nat) : fullInv (initState n0) := by
  intro i hi
  simp only [initState, createNewPage, List.nil_append,
    List.mem_singleton] at hi
  subst hi
  exact ⟨by simp [slotInv], Nat.lt_succ_self 0⟩

theorem applyOp_length_le (s : PoolState) (o : Op) (ho : o.isCreate = false)
    (h : s.pool.length ≤ maxSize) : (applyOp s o).pool.length ≤ maxSize := by
  cases o with
  | acquire now =>
    show (acquirePage s now).1.pool.length ≤ maxSize
    cases hA : acquireIdle s.pool now with
    | some r =>
      rw [acquirePage_eq_idle s now r hA]
      simpa [acquireIdle_length now s.pool r hA] using h
    | none =>
      by_cases hlen : s.pool.length < maxSize
      · rw [acquirePage_eq_grow s now hA hlen]
        simpa using hlen
      · rw [acquirePage_eq_block s now hA hlen]
        exact h
  | create now => exact absurd ho (by simp [Op.isCreate])
  | release page now =>
    show (releasePage s.pool page now).length ≤ maxSize
    rw [releasePage_length]
    exact h
  | remove page => exact le_trans (removePage_length page s.pool) h
  | fire id => exact le_trans (fireTimer_length id s.pool) h
  | closeall => simp [applyOp, closeAllPool, maxSize]

/-! ### Pool claim theorems -/

/-- C4 counterexample: from the freshly constructed pool (one warm page),
ten capacity-ignoring createPage calls drive the slot count to 11, exceeding
the configured capacity of 10. -/
theorem c4_capacity_counterexample :
    (applyOps (initState 0) (List.replicate 10 (Op.create 0))).pool.length
      = 11 ∧ maxSize < 11 := by
  decide

/-- C4 (amended): across every sequence of acquirePage, releasePage,
removePage, timer-eviction and closeAll operations — createPage excluded —
the number of Idle plus Busy slots never exceeds the capacity of 10;
createPage ignores the capacity and can push the pool above it. -/
theorem c4_capacity_bound (n0 : Nat) (ops : List Op)
    (h : ∀ o ∈ ops, o.isCreate = false) :
    (applyOps (initState n0) ops).pool.length ≤ maxSize := by
  have key : ∀ (os : List Op) (s : PoolState), (∀ o ∈ os, o.isCreate = false) →
      s.pool.length ≤ maxSize → (applyOps s os).pool.length ≤ maxSize := by
    intro os
    induction os with
    | nil => intro s _ hs; exact hs
    | cons o rest ih =>
      intro s hos hs
      exact ih (applyOp s o) (fun o' ho' => hos o' (List.mem_cons_of_mem _ ho'))
        (applyOp_length_le s o (hos o (List.mem_cons_self _ _)) hs)
  exact key ops (initState n0) h (by simp [initState, createNewPage, maxSize])

/-- C4 witness: a trace of one acquire and one release stays within
capacity. -/
theorem c4_capacity_bound_witness :
    (applyOps (initState 0) [Op.acquire 1, Op.release 0 2]).pool.length
      ≤ maxSize :=
  c4_capacity_bound 0 [Op.acquire 1, Op.release 0 2] (by decide)

/-- C9: in every state reachable from the freshly constructed pool by any
sequence of acquirePage, createPage, releasePage, removePage, timer firing
and closeAll, a Busy slot has no armed idle timer, and an Idle slot has an
armed timer or was just created and never yet released. -/
theorem c9_idle_timer_invariant (n0 : Nat) (ops : List Op) :
    poolInv (applyOps (initState n0) ops) := by
  intro i hi
  exact ((applyOps_fullInv ops (initState n0) (initState_fullInv n0)) i hi).1

/-- C3 counterexample: pool with page 0 busy; an interception task obtains
dedicated page 1 via createPage, the success path of render releases it back
into the pool (it ends Idle in the pool map), and another task's acquirePage
hands out that same page 1 again. -/
theorem c3_interception_page_reused_counterexample :
    (renderAcquire (acquirePage (initState 0) 1).1 true 2).2 = some 1 ∧
    (c3poolAfterSuccess.pool.map fun i => (i.page, i.status)) =
      [(0, Status.busy), (1, Status.idle)] ∧
    (acquirePage c3poolAfterSuccess 4).2 = some 1 := by
  decide

/-- C3 (amended): a page created via createPage for an interception task is
inserted into the pool at creation; on success render releases it back to the
pool, where it sits Idle, and when every other slot is busy the next
acquirePage call hands exactly that page to another task. -/
theorem c3_dedicated_page_reuse (s : PoolState) (now now' now'' : Nat)
    (hfresh : ∀ i ∈ s.pool, i.page ≠ s.nextId)
    (hbusy : ∀ i ∈ s.pool, i.status = .busy) :
    (renderAcquire s true now).2 = some s.nextId ∧
    (∃ i ∈ (renderCleanup (renderAcquire s true now).1 s.nextId false now').pool,
      i.page = s.nextId ∧ i.status = .idle) ∧
    (acquirePage (renderCleanup (renderAcquire s true now).1 s.nextId false now')
      now'').2 = some s.nextId := by
  have hra : renderAcquire s true now =
      ((createPage s now).1, some (createPage s now).2) := rfl
  rw [hra, createPage_eq s now hfresh]
  have hrel : releasePage
      (s.pool ++ [⟨s.nextId, s.nextId, .busy, now, false, true⟩])
      s.nextId now' =
      s.pool ++ [⟨s.nextId, s.nextId, .idle, now', true, false⟩] := by
    rw [releasePage_append s.pool _ s.nextId now' hfresh rfl]
    rfl
  simp only [renderCleanup, if_neg (by simp : ¬(false : Bool) = true)]
  rw [hrel]
  refine ⟨by simp, ⟨⟨s.nextId, s.nextId, .idle, now', true, false⟩,
    List.mem_append_right _ (List.mem_singleton.mpr rfl), rfl, rfl⟩, ?_⟩
  simp only [acquirePage]
  rw [acquireIdle_append_busy s.pool _ now'' hbusy rfl]

/-- C3 witness: the amended behaviour at the concrete one-busy-slot state. -/
theorem c3_dedicated_page_reuse_witness :
    (renderAcquire (acquirePage (initState 0) 1).1 true 2).2 =
      some (acquirePage (initState 0) 1).1.nextId ∧
    (∃ i ∈ (renderCleanup (renderAcquire (acquirePage (initState 0) 1).1 true 2).1
        (acquirePage (initState 0) 1).1.nextId false 3).pool,
      i.page = (acquirePage (initState 0) 1).1.nextId ∧ i.status = .idle) ∧
    (acquirePage (renderCleanup
        (renderAcquire (acquirePage (initState 0) 1).1 true 2).1
        (acquirePage (initState 0) 1).1.nextId false 3) 4).2 =
      some (acquirePage (initState 0) 1).1.nextId :=
  c3_dedicated_page_reuse (acquirePage (initState 0) 1).1 2 3 4
    (by decide) (by decide)

end PuppeteerCore
